import Mathlib

/-!
Verification development for the TDAmeritradeAPI transport core
(`src/curl_connect.cpp`) and its streaming-info collaborators
(`src/streaming/streaming_info.cpp`).

Strings are modelled as `List Char`; the native curl header list
(`curl_slist`) is modelled as a `List` of entries where the empty list
stands for the null pointer (libcurl has no non-null empty slist, so the
identification is exact).  Native pointers stored in the Option Registry
(the `to_string` of the header-list pointer and of the write-callback /
write-data addresses) are not representable; they are modelled by fixed
abstract string renderings, which is adequate because no claim inspects
their numeric value.
-/

namespace conn

abbrev Str := List Char

/-- The closed option-identifier enumeration used by `curl_connect.cpp`
(the members of `CurlConnection::option_strings`, plus `CURLOPT_HEADER`
which appears only in the `ADD_headers` failure path). -/
inductive CURLoption where
  | URL
  | SSL_VERIFYPEER
  | SSL_VERIFYHOST
  | CAINFO
  | CAPATH
  | ACCEPT_ENCODING
  | TCP_KEEPALIVE
  | HTTPGET
  | POST
  | COPYPOSTFIELDS
  | WRITEFUNCTION
  | WRITEDATA
  | HTTPHEADER
  | NOSIGNAL
  | HEADER
deriving DecidableEq, Repr

/-- Error kinds of the module's taxonomy: the base `CurlException` with the
closed-connection message, `CurlOptionException` (option identifier and the
attempted string value), and `CurlConnectionError` (engine failure code). -/
inductive CurlError where
  | closedError
  | optionError (opt : CURLoption) (val : Str)
  | connError (code : Nat)
deriving DecidableEq, Repr

/-- Association-list update with one entry per key, modelling
`std::map::operator[]` assignment on `_options`. -/
def updateOpt (m : List (CURLoption × Str)) (o : CURLoption) (v : Str) :
    List (CURLoption × Str) :=
  match m with
  | [] => [(o, v)]
  | (k, w) :: rest => if k = o then (k, v) :: rest else (k, w) :: updateOpt rest o v

/-- Association-list lookup, modelling `std::map::find` on `_options`. -/
def lookupOpt (m : List (CURLoption × Str)) (o : CURLoption) : Option Str :=
  match m with
  | [] => none
  | (k, w) :: rest => if k = o then some w else lookupOpt rest o

/-- Association-list removal, modelling `std::map::erase` on `_options`. -/
def eraseOpt (m : List (CURLoption × Str)) (o : CURLoption) :
    List (CURLoption × Str) :=
  match m with
  | [] => []
  | (k, w) :: rest => if k = o then rest else (k, w) :: eraseOpt rest o

/-- The registry has at most one entry per option identifier. -/
def keysNodup (m : List (CURLoption × Str)) : Prop :=
  (m.map Prod.fst).Nodup

/-- State of one `CurlConnection`: whether `_handle` is non-null, the
`_header` slist contents (`[]` = null pointer), the `_options` registry,
and the option state actually applied to the native handle (what
`curl_easy_setopt` has set since the last `curl_easy_reset`). -/
structure ConnState where
  handleOpen : Bool
  header : List Str
  options : List (CURLoption × Str)
  applied : List (CURLoption × Str)
deriving DecidableEq, Repr

/-- Outcome of one mutating call: the connection state after the call
(C++ exceptions leave the object in its mutated state), the trace of
`curl_easy_setopt` attempts made (identifier, string value, success), and
the raised error, if any. -/
structure StepOut where
  state : ConnState
  trace : List (CURLoption × Str × Bool)
  err : Option CurlError
deriving DecidableEq, Repr

/-- Modelled from the spec: the body of `CurlConnection::set_option` lives
in `curl_connect.h`, which is not among the provided sources.  Per spec
4.2 it validates the connection is open (else closed-connection error),
applies the option to the native handle, and only on success records /
overwrites the Option Registry entry; a failed apply raises the
malformed-option error carrying the identifier and the attempted string
value, leaving the registry untouched.  The parameter `ok` is the oracle
for whether `curl_easy_setopt` succeeds. -/
def setOption (c : ConnState) (ok : Bool) (o : CURLoption) (v : Str) : StepOut :=
  if c.handleOpen then
    if ok then
      ⟨{ c with options := updateOpt c.options o v,
                applied := updateOpt c.applied o v }, [(o, v, true)], none⟩
    else ⟨c, [(o, v, false)], some (CurlError.optionError o v)⟩
  else ⟨c, [], some CurlError.closedError⟩

/-- Sequencing of mutating calls: a raised exception aborts the rest. -/
def seqStep (r : StepOut) (f : ConnState → StepOut) : StepOut :=
  match r.err with
  | some _ => r
  | none =>
    let r2 := f r.state
    ⟨r2.state, r.trace ++ r2.trace, r2.err⟩

def SET_url (c : ConnState) (url : Str) (ok : Bool) : StepOut :=
  setOption c ok CURLoption.URL url

def SET_ssl_verify (c : ConnState) (ok1 ok2 : Bool) : StepOut :=
  seqStep (setOption c ok1 CURLoption.SSL_VERIFYPEER (("1").toList))
    (fun c2 => setOption c2 ok2 CURLoption.SSL_VERIFYHOST (("2").toList))

def SET_ssl_verify_using_ca_bundle (c : ConnState) (path : Str)
    (ok1 ok2 ok3 : Bool) : StepOut :=
  seqStep (SET_ssl_verify c ok1 ok2)
    (fun c2 => setOption c2 ok3 CURLoption.CAINFO path)

def SET_ssl_verify_using_ca_certs (c : ConnState) (dir : Str)
    (ok1 ok2 ok3 : Bool) : StepOut :=
  seqStep (SET_ssl_verify c ok1 ok2)
    (fun c2 => setOption c2 ok3 CURLoption.CAPATH dir)

def SET_encoding (c : ConnState) (enc : Str) (ok : Bool) : StepOut :=
  setOption c ok CURLoption.ACCEPT_ENCODING enc

def SET_keepalive (c : ConnState) (ok : Bool) : StepOut :=
  setOption c ok CURLoption.TCP_KEEPALIVE (("1").toList)

/-- `h.first + ": " + h.second` from `ADD_headers`. -/
def serializeHeader (p : Str × Str) : Str :=
  p.1 ++ (": ").toList ++ p.2

/-- Abstract rendering of the header-list pointer for the registry value
(`to_string` of a pointer in the source; no claim reads this value). -/
def renderSlist (hs : List Str) : Str :=
  List.intercalate (['\n']) hs

/-- The append loop of `ADD_headers`: `_header = curl_slist_append(_header, s)`
for each pair, in order.  `oks` is the oracle for each append (missing
entries mean success); on a failed append the source overwrites `_header`
with the null result before throwing `CurlOptionException` with
`CURLOPT_HEADER` and the offending serialized string. -/
def slistAppendLoop (c : ConnState) (pairs : List (Str × Str))
    (oks : List Bool) : StepOut :=
  match pairs with
  | [] => ⟨c, [], none⟩
  | p :: rest =>
    let s := serializeHeader p
    if oks.headD true then
      slistAppendLoop { c with header := c.header ++ [s] } rest oks.tail
    else
      ⟨{ c with header := [] }, [],
        some (CurlError.optionError CURLoption.HEADER s)⟩

/-- `CurlConnection::ADD_headers` (curl_connect.cpp 144-163): closed check,
empty input is a no-op, append loop, then `set_option(CURLOPT_HTTPHEADER,
_header)` re-applying the whole list. -/
def ADD_headers (c : ConnState) (pairs : List (Str × Str))
    (appendOks : List Bool) (applyOk : Bool) : StepOut :=
  if c.handleOpen then
    if pairs.isEmpty then ⟨c, [], none⟩
    else
      seqStep (slistAppendLoop c pairs appendOks)
        (fun c2 => setOption c2 applyOk CURLoption.HTTPHEADER (renderSlist c2.header))
  else ⟨c, [], some CurlError.closedError⟩

/-- `CurlConnection::RESET_headers` (curl_connect.cpp 166-172): frees the
slist (null-safe), nulls `_header`, erases the header registry entry; note
there is no closed-connection check. -/
def RESET_headers (c : ConnState) : ConnState :=
  { c with header := [], options := eraseOpt c.options CURLoption.HTTPHEADER }

/-- `CurlConnection::RESET_options` (curl_connect.cpp 174-182): reset
headers, then `curl_easy_reset` (restores the handle's engine defaults,
undoing every applied option) when the handle is live, then clear the
whole registry. -/
def RESET_options (c : ConnState) : ConnState :=
  let c1 := RESET_headers c
  let c2 := if c1.handleOpen then { c1 with applied := [] } else c1
  { c2 with options := [] }

/-- `CurlConnection::close` (curl_connect.cpp 94-106): free and null the
header list, cleanup and null the handle, clear the registry.  The
destructor simply calls `close`. -/
def close (c : ConnState) : ConnState :=
  { handleOpen := false, header := [], options := [], applied := [] }

/-- The environment of one `execute` call: whether the two `set_option`
calls binding the write callback and write destination succeed, the
`CURLcode` returned by `curl_easy_perform` (`0` = `CURLE_OK`), the body
chunks the engine delivers to the write callback, the response status the
engine reports, and the clock value read immediately after `perform`
returns. -/
structure Engine where
  wfOk : Bool
  wdOk : Bool
  code : Nat
  chunks : List Str
  respCode : Int
  now : Nat
deriving DecidableEq, Repr

/-- Abstract registry value for `&WriteCallback::write`. -/
def writeFnVal : Str := ("&WriteCallback::write").toList

/-- Abstract registry value for `&cb`, the per-call response sink. -/
def writeDataVal : Str := ("&cb").toList

/-- `CurlConnection::execute` (curl_connect.cpp 69-91): closed check, bind
a fresh sink and callback via `set_option`, one blocking `perform`,
timestamp immediately after, raise `CurlConnectionError(ccode)` on engine
failure (sink content discarded), else read the response code and return
`(status, body, timestamp)`. -/
def execute (c : ConnState) (e : Engine) :
    ConnState × List (CURLoption × Str × Bool) × Except CurlError (Int × Str × Nat) :=
  if c.handleOpen then
    let r1 := setOption c e.wfOk CURLoption.WRITEFUNCTION writeFnVal
    match r1.err with
    | some er => (r1.state, r1.trace, Except.error er)
    | none =>
      let r2 := setOption r1.state e.wdOk CURLoption.WRITEDATA writeDataVal
      match r2.err with
      | some er => (r2.state, r1.trace ++ r2.trace, Except.error er)
      | none =>
        if e.code ≠ 0 then
          (r2.state, r1.trace ++ r2.trace, Except.error (CurlError.connError e.code))
        else
          (r2.state, r1.trace ++ r2.trace,
            Except.ok (e.respCode, (e.chunks).flatten, e.now))
  else (c, [], Except.error CurlError.closedError)

/-- "k=v&" concatenation from `HTTPSPostConnection::SET_fields`. -/
def buildFieldsRaw (fs : List (Str × Str)) : Str :=
  (fs.map (fun f => f.1 ++ '=' :: f.2 ++ ['&'])).flatten

/-- The POST-fields wire string: the concatenation with its trailing `'&'`
erased (the source asserts the last character is `'&'` and erases it). -/
def buildFields (fs : List (Str × Str)) : Str :=
  let s := buildFieldsRaw fs
  if s.isEmpty then s else s.dropLast

/-- `HTTPSPostConnection::SET_fields` (curl_connect.cpp 241-260): closed
check via `is_closed`, empty list is a no-op, else build the wire string
and `set_option(CURLOPT_COPYPOSTFIELDS, s)`. -/
def SET_fields (c : ConnState) (fs : List (Str × Str)) (ok : Bool) : StepOut :=
  if c.handleOpen then
    if fs.isEmpty then ⟨c, [], none⟩
    else setOption c ok CURLoption.COPYPOSTFIELDS (buildFields fs)
  else ⟨c, [], some CurlError.closedError⟩

/-- Split a string at every occurrence of `sep`, keeping empty segments:
the `find_first_of` / advance-past loop of `fields_str_to_map`. -/
def splitOnChar (sep : Char) : Str → List Str
  | [] => [[]]
  | c :: rest =>
    if c = sep then [] :: splitOnChar sep rest
    else
      match splitOnChar sep rest with
      | [] => [[c]]
      | s :: ss => (c :: s) :: ss

/-- Split at the first occurrence of `sep`, returning the parts before and
after it, or `none` when `sep` does not occur (`std::find` hitting `end`). -/
def splitFirst (sep : Char) : Str → Option (Str × Str)
  | [] => none
  | c :: rest =>
    if c = sep then some ([], rest)
    else (splitFirst sep rest).map (fun p => (c :: p.1, p.2))

/-- `fields_str_to_map` (curl_connect.cpp 292-318): split on `'&'`; each
non-empty segment containing `'='` contributes the pair (before first
`'='`, after it); other segments are skipped. -/
def fields_str_to_map (fstr : Str) : List (Str × Str) :=
  (splitOnChar '&' fstr).filterMap
    (fun s => if s = [] then none else splitFirst '=' s)

/-- `header_list_to_map` (curl_connect.cpp 321-334): for each slist entry,
name = before the first `':'`, value = everything after it (the space of
`": "` is not stripped).  An entry with no `':'` makes the source construct
a string from a past-the-end iterator (undefined); no claim reaches that
branch, and it is modelled as (entry, ""). -/
def header_list_to_map (hs : List Str) : List (Str × Str) :=
  hs.map (fun s =>
    match splitFirst ':' s with
    | some p => p
    | none => (s, []))

/-- The initial object state before the constructor body runs: live
handle from `curl_easy_init`, null `_header`, empty registry, pristine
handle defaults. -/
def freshState : ConnState :=
  ⟨true, [], [], []⟩

/-- `CurlConnection::CurlConnection()` (curl_connect.cpp 41-47): acquire a
handle and apply the baseline `CURLOPT_NOSIGNAL = 1`. -/
def CurlConnection_new : ConnState :=
  (setOption freshState true CURLoption.NOSIGNAL (("1").toList)).state

/-- `CurlConnection::CurlConnection(url)`: delegate then `SET_url`. -/
def CurlConnection_new_url (url : Str) : ConnState :=
  (SET_url CurlConnection_new url true).state

def DEFAULT_ENCODING : Str := ("gzip").toList

/-- `HTTPSConnection::HTTPSConnection()` (curl_connect.cpp 187-192). -/
def HTTPSConnection_new : ConnState :=
  (SET_ssl_verify CurlConnection_new true true).state

/-- `HTTPSConnection::HTTPSConnection(url)` (curl_connect.cpp 194-199). -/
def HTTPSConnection_new_url (url : Str) : ConnState :=
  (SET_ssl_verify (CurlConnection_new_url url) true true).state

/-- The shared tail of both `HTTPSGetConnection` constructors:
`CURLOPT_HTTPGET = 1`, default encoding, keep-alive. -/
def getProfile (c : ConnState) : ConnState :=
  (SET_keepalive
    (SET_encoding (setOption c true CURLoption.HTTPGET (("1").toList)).state
      DEFAULT_ENCODING true).state true).state

/-- The shared tail of both `HTTPSPostConnection` constructors:
`CURLOPT_POST = 1`, default encoding, keep-alive. -/
def postProfile (c : ConnState) : ConnState :=
  (SET_keepalive
    (SET_encoding (setOption c true CURLoption.POST (("1").toList)).state
      DEFAULT_ENCODING true).state true).state

def HTTPSGetConnection_new : ConnState :=
  getProfile HTTPSConnection_new

def HTTPSGetConnection_new_url (url : Str) : ConnState :=
  getProfile (HTTPSConnection_new_url url)

def HTTPSPostConnection_new : ConnState :=
  postProfile HTTPSConnection_new

def HTTPSPostConnection_new_url (url : Str) : ConnState :=
  postProfile (HTTPSConnection_new_url url)

/-- The operations a caller can invoke on one connection, each carrying
the success oracle of its native calls. -/
inductive Op where
  | opSetUrl (url : Str) (ok : Bool)
  | opSetSslVerify (ok1 ok2 : Bool)
  | opSetSslVerifyCaBundle (path : Str) (ok1 ok2 ok3 : Bool)
  | opSetSslVerifyCaCerts (dir : Str) (ok1 ok2 ok3 : Bool)
  | opSetEncoding (enc : Str) (ok : Bool)
  | opSetKeepalive (ok : Bool)
  | opAddHeaders (pairs : List (Str × Str)) (appendOks : List Bool) (applyOk : Bool)
  | opSetFields (fs : List (Str × Str)) (ok : Bool)
  | opExecute (e : Engine)
deriving Repr

def exceptErr : Except CurlError (Int × Str × Nat) → Option CurlError
  | Except.error e => some e
  | Except.ok _ => none

def runOp (c : ConnState) : Op → StepOut
  | Op.opSetUrl url ok => SET_url c url ok
  | Op.opSetSslVerify ok1 ok2 => SET_ssl_verify c ok1 ok2
  | Op.opSetSslVerifyCaBundle path ok1 ok2 ok3 =>
      SET_ssl_verify_using_ca_bundle c path ok1 ok2 ok3
  | Op.opSetSslVerifyCaCerts dir ok1 ok2 ok3 =>
      SET_ssl_verify_using_ca_certs c dir ok1 ok2 ok3
  | Op.opSetEncoding enc ok => SET_encoding c enc ok
  | Op.opSetKeepalive ok => SET_keepalive c ok
  | Op.opAddHeaders pairs appendOks applyOk => ADD_headers c pairs appendOks applyOk
  | Op.opSetFields fs ok => SET_fields c fs ok
  | Op.opExecute e =>
      let r := execute c e
      ⟨r.1, r.2.1, exceptErr r.2.2⟩

/-- Run a call sequence, collecting the full `curl_easy_setopt` trace; the
caller is assumed to catch exceptions and continue with the object. -/
def runOps (c : ConnState) : List Op → ConnState × List (CURLoption × Str × Bool)
  | [] => (c, [])
  | op :: rest =>
    let r := runOp c op
    let t := runOps r.state rest
    (t.1, r.trace ++ t.2)

/-- The value of the most recent successful `curl_easy_setopt` of option
`o` in the trace `tr`, defaulting to `init` when there is none. -/
def lastOkFrom (init : Option Str) (tr : List (CURLoption × Str × Bool))
    (o : CURLoption) : Option Str :=
  match tr with
  | [] => init
  | (o2, v, ok) :: rest =>
    lastOkFrom (if o2 = o ∧ ok = true then some v else init) rest o

end conn

namespace tdma

abbrev Str := List Char

/-- The exceptions `timestamp_to_ms` can raise: `APIException` with the
invalid-timestamp message, or `std::invalid_argument` out of `stoi` when a
field has no leading numeric part. -/
inductive TsError where
  | apiError
  | stoiError
deriving DecidableEq, Repr

/-- The whitespace set `std::isspace` accepts in the "C" locale, which
`stoi` (via `strtol`) skips before the number. -/
def isSpaceChar (c : Char) : Bool :=
  c = ' ' || c = '\t' || c = '\n' || c = '\x0b' || c = '\x0c' || c = '\r'

/-- Accumulate the value of the maximal leading digit run. -/
def digitsAcc : Str → Nat → Nat
  | [], acc => acc
  | c :: rest, acc =>
    if c.isDigit then digitsAcc rest (acc * 10 + (c.toNat - 48)) else acc

/-- Value of a maximal leading digit run; `none` when the first character
is not a digit. -/
def natFromDigits (s : Str) : Option Nat :=
  match s with
  | [] => none
  | c :: _ => if c.isDigit then some (digitsAcc s 0) else none

/-- `std::stoi` on the short field substrings: skip leading whitespace,
optional sign, then a required digit run (else `std::invalid_argument`,
modelled as `none`); trailing non-digits are ignored.  The fields here are
at most four characters, so the out-of-range case cannot arise. -/
def stoiCore (s : Str) : Option Int :=
  match s.dropWhile isSpaceChar with
  | '+' :: rest => (natFromDigits rest).map (fun n => (n : Int))
  | '-' :: rest => (natFromDigits rest).map (fun n => -(n : Int))
  | rest => (natFromDigits rest).map (fun n => (n : Int))

/-- Days from the epoch 1970-01-01 of the first day of month `m` (1..12)
of year `y`, proleptic Gregorian (Hinnant's days-from-civil algorithm). -/
def daysFromCivil (y m : Int) : Int :=
  let y2 := if m ≤ 2 then y - 1 else y
  let era := Int.fdiv y2 400
  let yoe := y2 - era * 400
  let mp := Int.emod (m + 9) 12
  let doy := Int.fdiv (153 * mp + 2) 5
  let doe := yoe * 365 + Int.fdiv yoe 4 - Int.fdiv yoe 100 + doy
  era * 146097 + doe - 719468

/-- Modelled from the spec and the C library contract: `timegm` (an
external libc function, not repository code) converts broken-down UTC
fields to epoch seconds, normalizing out-of-range fields.  `year` is years
since 1900 and `mon` is zero-based, as in `struct tm`. -/
def timegm (year mon mday hour min sec : Int) : Int :=
  let mtot := (year + 1900) * 12 + mon
  let y := Int.fdiv mtot 12
  let m := Int.emod mtot 12 + 1
  (daysFromCivil y m + (mday - 1)) * 86400 + hour * 3600 + min * 60 + sec

/-- `ts.substr(pos, len)` for in-range positions. -/
def fieldAt (ts : Str) (pos len : Nat) : Str :=
  (ts.drop pos).take len

/-- The six `stoi` field reads of `timestamp_to_ms`, in source order, each
aborting with `std::invalid_argument` (`none`) on a non-numeric field, and
the final `timegm(&t) * 1000`. -/
def parseTsFields (ts : Str) : Option Int := do
  let y ← stoiCore (fieldAt ts 0 4)
  let mo ← stoiCore (fieldAt ts 5 2)
  let d ← stoiCore (fieldAt ts 8 2)
  let h ← stoiCore (fieldAt ts 11 2)
  let mi ← stoiCore (fieldAt ts 14 2)
  let s ← stoiCore (fieldAt ts 17 2)
  some (timegm (y - 1900) (mo - 1) d h mi s * 1000)

/-- `timestamp_to_ms` (streaming_info.cpp 31-53): raise `APIException`
unless the length is 24 and characters 20-23 are `"0000"` (the `||` in the
source short-circuits, so the substring is never taken on a wrong length),
then parse the six numeric fields and convert. -/
def timestamp_to_ms (ts : Str) : Except TsError Int :=
  if ts.length = 24 ∧ fieldAt ts 20 4 = ("0000").toList then
    match parseTsFields ts with
    | some v => Except.ok v
    | none => Except.error TsError.stoiError
  else Except.error TsError.apiError

/-- The streaming-service enumeration, restricted to the members the
string constructor can produce. -/
inductive StreamerServiceType where
  | NONE
  | ADMIN
  | ACTIVES_NASDAQ
  | ACTIVES_NYSE
  | ACTIVES_OTCBB
  | ACTIVES_OPTIONS
  | CHART_EQUITY
  | CHART_FUTURES
  | CHART_OPTIONS
  | QUOTE
  | LEVELONE_FUTURES
  | LEVELONE_FOREX
  | LEVELONE_FUTURES_OPTIONS
  | OPTION
  | NEWS_HEADLINE
  | TIMESALE_EQUITY
  | TIMESALE_FUTURES
  | TIMESALE_OPTIONS
deriving DecidableEq, Repr

/-- `ValueException`, carrying its message. -/
inductive ValueErr where
  | valueError (msg : Str)
deriving DecidableEq, Repr

/-- `StreamerService::StreamerService(string)` (streaming_info.cpp
119-163): the if/else-if name chain; the `CHART_FOREX` and
`TIMESALE_FOREX` branches are commented out in the source, so those names
fall through to the final `ValueException`. -/
def StreamerService_from_string (s : Str) : Except ValueErr StreamerServiceType :=
  if s = ("NONE").toList then Except.ok StreamerServiceType.NONE
  else if s = ("ADMIN").toList then Except.ok StreamerServiceType.ADMIN
  else if s = ("ACTIVES_NASDAQ").toList then Except.ok StreamerServiceType.ACTIVES_NASDAQ
  else if s = ("ACTIVES_NYSE").toList then Except.ok StreamerServiceType.ACTIVES_NYSE
  else if s = ("ACTIVES_OTCBB").toList then Except.ok StreamerServiceType.ACTIVES_OTCBB
  else if s = ("ACTIVES_OPTIONS").toList then Except.ok StreamerServiceType.ACTIVES_OPTIONS
  else if s = ("CHART_EQUITY").toList then Except.ok StreamerServiceType.CHART_EQUITY
  else if s = ("CHART_FUTURES").toList then Except.ok StreamerServiceType.CHART_FUTURES
  else if s = ("CHART_OPTIONS").toList then Except.ok StreamerServiceType.CHART_OPTIONS
  else if s = ("QUOTE").toList then Except.ok StreamerServiceType.QUOTE
  else if s = ("LEVELONE_FUTURES").toList then Except.ok StreamerServiceType.LEVELONE_FUTURES
  else if s = ("LEVELONE_FOREX").toList then Except.ok StreamerServiceType.LEVELONE_FOREX
  else if s = ("LEVELONE_FUTURES_OPTIONS").toList then
    Except.ok StreamerServiceType.LEVELONE_FUTURES_OPTIONS
  else if s = ("OPTION").toList then Except.ok StreamerServiceType.OPTION
  else if s = ("NEWS_HEADLINE").toList then Except.ok StreamerServiceType.NEWS_HEADLINE
  else if s = ("TIMESALE_EQUITY").toList then Except.ok StreamerServiceType.TIMESALE_EQUITY
  else if s = ("TIMESALE_FUTURES").toList then Except.ok StreamerServiceType.TIMESALE_FUTURES
  else if s = ("TIMESALE_OPTIONS").toList then Except.ok StreamerServiceType.TIMESALE_OPTIONS
  else Except.error (ValueErr.valueError ((("invalid service name: ").toList) ++ s))

/-- The 18 service names the constructor accepts. -/
def validServiceNames : List Str :=
  [("NONE").toList, ("ADMIN").toList, ("ACTIVES_NASDAQ").toList,
   ("ACTIVES_NYSE").toList, ("ACTIVES_OTCBB").toList,
   ("ACTIVES_OPTIONS").toList, ("CHART_EQUITY").toList,
   ("CHART_FUTURES").toList, ("CHART_OPTIONS").toList, ("QUOTE").toList,
   ("LEVELONE_FUTURES").toList, ("LEVELONE_FOREX").toList,
   ("LEVELONE_FUTURES_OPTIONS").toList, ("OPTION").toList,
   ("NEWS_HEADLINE").toList, ("TIMESALE_EQUITY").toList,
   ("TIMESALE_FUTURES").toList, ("TIMESALE_OPTIONS").toList]

end tdma

namespace conn

theorem lookupOpt_updateOpt (m : List (CURLoption × Str)) (o : CURLoption)
    (v : Str) (o2 : CURLoption) :
    lookupOpt (updateOpt m o v) o2 = if o = o2 then some v else lookupOpt m o2 := by
  induction m with
  | nil => simp [updateOpt, lookupOpt]
  | cons kw rest ih =>
    obtain ⟨k, w⟩ := kw
    by_cases hk : k = o
    · subst hk
      by_cases h2 : k = o2 <;> simp [updateOpt, lookupOpt, h2]
    · by_cases h2 : k = o2
      · subst h2
        simp [updateOpt, lookupOpt, hk, Ne.symm hk]
      · simp [updateOpt, lookupOpt, hk, h2, ih]

theorem mem_keys_updateOpt {m : List (CURLoption × Str)} {o : CURLoption}
    {v : Str} {a : CURLoption}
    (h : a ∈ (updateOpt m o v).map Prod.fst) :
    a ∈ m.map Prod.fst ∨ a = o := by
  induction m with
  | nil =>
    simp only [updateOpt, List.map_cons, List.map_nil, List.mem_singleton] at h
    exact Or.inr h
  | cons kw rest ih =>
    obtain ⟨k, w⟩ := kw
    by_cases hk : k = o
    · subst hk
      have he : updateOpt ((k, w) :: rest) k v = (k, v) :: rest := by
        simp [updateOpt]
      rw [he] at h
      simp only [List.map_cons, List.mem_cons] at h ⊢
      tauto
    · simp only [updateOpt, hk, if_false, List.map_cons, List.mem_cons] at h
      simp only [List.map_cons, List.mem_cons]
      rcases h with h | h
      · tauto
      · rcases ih h with h2 | h2 <;> tauto

theorem keysNodup_updateOpt (m : List (CURLoption × Str)) (o : CURLoption)
    (v : Str) (h : keysNodup m) : keysNodup (updateOpt m o v) := by
  induction m with
  | nil => simp [updateOpt, keysNodup]
  | cons kw rest ih =>
    obtain ⟨k, w⟩ := kw
    simp only [keysNodup, List.map_cons, List.nodup_cons] at h
    by_cases hk : k = o
    · subst hk
      simpa [updateOpt, keysNodup] using h
    · have hrest := ih h.2
      simp only [updateOpt, hk, if_false]
      simp only [keysNodup, List.map_cons, List.nodup_cons]
      refine ⟨fun hmem => ?_, hrest⟩
      rcases mem_keys_updateOpt hmem with h2 | h2
      · exact h.1 h2
      · exact hk h2

theorem lastOkFrom_append (init : Option Str)
    (t1 t2 : List (CURLoption × Str × Bool)) (o : CURLoption) :
    lastOkFrom init (t1 ++ t2) o = lastOkFrom (lastOkFrom init t1 o) t2 o := by
  induction t1 generalizing init with
  | nil => simp [lastOkFrom]
  | cons r rest ih =>
    obtain ⟨o2, v, ok⟩ := r
    simp [lastOkFrom, ih]

theorem setOption_mirror (c : ConnState) (ok : Bool) (o : CURLoption)
    (v : Str) (o2 : CURLoption) :
    lookupOpt (setOption c ok o v).state.options o2
      = lastOkFrom (lookupOpt c.options o2) (setOption c ok o v).trace o2 := by
  by_cases h : c.handleOpen <;> cases ok <;>
    simp [setOption, h, lastOkFrom, lookupOpt_updateOpt]

theorem setOption_nodup (c : ConnState) (ok : Bool) (o : CURLoption)
    (v : Str) (h : keysNodup c.options) :
    keysNodup (setOption c ok o v).state.options := by
  by_cases hh : c.handleOpen <;> cases ok <;>
    simp [setOption, hh, keysNodup_updateOpt, h]

theorem seqStep_mirror (r : StepOut) (f : ConnState → StepOut) (c : ConnState)
    (hr : ∀ o, lookupOpt r.state.options o
            = lastOkFrom (lookupOpt c.options o) r.trace o)
    (hf : ∀ (c2 : ConnState) (o : CURLoption),
            lookupOpt (f c2).state.options o
              = lastOkFrom (lookupOpt c2.options o) (f c2).trace o)
    (o : CURLoption) :
    lookupOpt (seqStep r f).state.options o
      = lastOkFrom (lookupOpt c.options o) (seqStep r f).trace o := by
  cases herr : r.err with
  | some e => simp [seqStep, herr, hr o]
  | none => simp [seqStep, herr, lastOkFrom_append, hf, hr]

theorem seqStep_nodup (r : StepOut) (f : ConnState → StepOut)
    (hr : keysNodup r.state.options)
    (hf : ∀ c2 : ConnState, keysNodup c2.options → keysNodup (f c2).state.options) :
    keysNodup (seqStep r f).state.options := by
  cases herr : r.err with
  | some e => simpa [seqStep, herr] using hr
  | none => simpa [seqStep, herr] using hf r.state hr

theorem slistAppendLoop_state (c : ConnState) (pairs : List (Str × Str))
    (oks : List Bool) :
    (slistAppendLoop c pairs oks).state.options = c.options
  ∧ (slistAppendLoop c pairs oks).state.applied = c.applied
  ∧ (slistAppendLoop c pairs oks).state.handleOpen = c.handleOpen
  ∧ (slistAppendLoop c pairs oks).trace = [] := by
  induction pairs generalizing c oks with
  | nil => simp [slistAppendLoop]
  | cons p rest ih =>
    cases oks with
    | nil => simp [slistAppendLoop, ih]
    | cons b obs => cases b <;> simp [slistAppendLoop, ih]

theorem execute_mirror (c : ConnState) (e : Engine) (o : CURLoption) :
    lookupOpt (execute c e).1.options o
      = lastOkFrom (lookupOpt c.options o) (execute c e).2.1 o := by
  by_cases h : c.handleOpen
  · cases hwf : e.wfOk <;> cases hwd : e.wdOk <;>
      by_cases hc : e.code = 0 <;>
      simp [execute, setOption, h, hwf, hwd, hc, lastOkFrom, lookupOpt_updateOpt]
  · simp [execute, h, lastOkFrom]

theorem execute_nodup (c : ConnState) (e : Engine)
    (h : keysNodup c.options) : keysNodup (execute c e).1.options := by
  by_cases ho : c.handleOpen
  · cases hwf : e.wfOk <;> cases hwd : e.wdOk <;>
      by_cases hc : e.code = 0 <;>
      simp [execute, setOption, ho, hwf, hwd, hc, keysNodup_updateOpt, h]
  · simpa [execute, ho] using h

theorem ADD_headers_mirror (c : ConnState) (pairs : List (Str × Str))
    (appendOks : List Bool) (applyOk : Bool) (o : CURLoption) :
    lookupOpt (ADD_headers c pairs appendOks applyOk).state.options o
      = lastOkFrom (lookupOpt c.options o)
          (ADD_headers c pairs appendOks applyOk).trace o := by
  by_cases h : c.handleOpen
  · by_cases hp : pairs.isEmpty
    · simp [ADD_headers, h, hp, lastOkFrom]
    · simp only [ADD_headers, h, hp, if_true, if_false, Bool.false_eq_true]
      refine seqStep_mirror _ _ c (fun o2 => ?_) (fun c2 o2 => setOption_mirror _ _ _ _ _) o
      have hs := slistAppendLoop_state c pairs appendOks
      rw [hs.1, hs.2.2.2]
      rfl
  · simp [ADD_headers, h, lastOkFrom]

theorem ADD_headers_nodup (c : ConnState) (pairs : List (Str × Str))
    (appendOks : List Bool) (applyOk : Bool) (h : keysNodup c.options) :
    keysNodup (ADD_headers c pairs appendOks applyOk).state.options := by
  by_cases ho : c.handleOpen
  · by_cases hp : pairs.isEmpty
    · simpa [ADD_headers, ho, hp] using h
    · simp only [ADD_headers, ho, hp, if_true, if_false, Bool.false_eq_true]
      refine seqStep_nodup _ _ ?_ (fun c2 h2 => setOption_nodup _ _ _ _ h2)
      rw [(slistAppendLoop_state c pairs appendOks).1]
      exact h
  · simpa [ADD_headers, ho] using h

theorem runOp_mirror (c : ConnState) (op : Op) (o : CURLoption) :
    lookupOpt (runOp c op).state.options o
      = lastOkFrom (lookupOpt c.options o) (runOp c op).trace o := by
  cases op with
  | opSetUrl url ok => exact setOption_mirror c ok CURLoption.URL url o
  | opSetSslVerify ok1 ok2 =>
    exact seqStep_mirror _ _ c (fun o2 => setOption_mirror _ _ _ _ _)
      (fun c2 o2 => setOption_mirror _ _ _ _ _) o
  | opSetSslVerifyCaBundle path ok1 ok2 ok3 =>
    refine seqStep_mirror _ _ c (fun o2 => ?_)
      (fun c2 o2 => setOption_mirror _ _ _ _ _) o
    exact seqStep_mirror _ _ c (fun o3 => setOption_mirror _ _ _ _ _)
      (fun c2 o3 => setOption_mirror _ _ _ _ _) o2
  | opSetSslVerifyCaCerts dir ok1 ok2 ok3 =>
    refine seqStep_mirror _ _ c (fun o2 => ?_)
      (fun c2 o2 => setOption_mirror _ _ _ _ _) o
    exact seqStep_mirror _ _ c (fun o3 => setOption_mirror _ _ _ _ _)
      (fun c2 o3 => setOption_mirror _ _ _ _ _) o2
  | opSetEncoding enc ok => exact setOption_mirror c ok CURLoption.ACCEPT_ENCODING enc o
  | opSetKeepalive ok => exact setOption_mirror c ok CURLoption.TCP_KEEPALIVE _ o
  | opAddHeaders pairs appendOks applyOk => exact ADD_headers_mirror c pairs appendOks applyOk o
  | opSetFields fs ok =>
    by_cases h : c.handleOpen
    · by_cases hf : fs.isEmpty
      · simp [runOp, SET_fields, h, hf, lastOkFrom]
      · simpa [runOp, SET_fields, h, hf] using
          setOption_mirror c ok CURLoption.COPYPOSTFIELDS (buildFields fs) o
    · simp [runOp, SET_fields, h, lastOkFrom]
  | opExecute e => exact execute_mirror c e o

theorem runOp_nodup (c : ConnState) (op : Op) (h : keysNodup c.options) :
    keysNodup (runOp c op).state.options := by
  cases op with
  | opSetUrl url ok => exact setOption_nodup _ _ _ _ h
  | opSetSslVerify ok1 ok2 =>
    exact seqStep_nodup _ _ (setOption_nodup _ _ _ _ h)
      (fun c2 h2 => setOption_nodup _ _ _ _ h2)
  | opSetSslVerifyCaBundle path ok1 ok2 ok3 =>
    refine seqStep_nodup _ _ ?_ (fun c2 h2 => setOption_nodup _ _ _ _ h2)
    exact seqStep_nodup _ _ (setOption_nodup _ _ _ _ h)
      (fun c2 h2 => setOption_nodup _ _ _ _ h2)
  | opSetSslVerifyCaCerts dir ok1 ok2 ok3 =>
    refine seqStep_nodup _ _ ?_ (fun c2 h2 => setOption_nodup _ _ _ _ h2)
    exact seqStep_nodup _ _ (setOption_nodup _ _ _ _ h)
      (fun c2 h2 => setOption_nodup _ _ _ _ h2)
  | opSetEncoding enc ok => exact setOption_nodup _ _ _ _ h
  | opSetKeepalive ok => exact setOption_nodup _ _ _ _ h
  | opAddHeaders pairs appendOks applyOk => exact ADD_headers_nodup _ _ _ _ h
  | opSetFields fs ok =>
    by_cases ho : c.handleOpen
    · by_cases hf : fs.isEmpty
      · simpa [runOp, SET_fields, ho, hf] using h
      · simpa [runOp, SET_fields, ho, hf] using
          setOption_nodup c ok CURLoption.COPYPOSTFIELDS (buildFields fs) h
    · simpa [runOp, SET_fields, ho] using h
  | opExecute e => exact execute_nodup c e h

theorem runOps_mirror (ops : List Op) (c : ConnState) (o : CURLoption) :
    lookupOpt (runOps c ops).1.options o
      = lastOkFrom (lookupOpt c.options o) (runOps c ops).2 o := by
  induction ops generalizing c with
  | nil => simp [runOps, lastOkFrom]
  | cons op rest ih =>
    simp only [runOps, lastOkFrom_append]
    rw [ih (runOp c op).state, runOp_mirror]

theorem runOps_nodup (ops : List Op) (c : ConnState) (h : keysNodup c.options) :
    keysNodup (runOps c ops).1.options := by
  induction ops generalizing c with
  | nil => simpa [runOps] using h
  | cons op rest ih =>
    simp only [runOps]
    exact ih (runOp c op).state (runOp_nodup c op h)

/-- Claim C1: over any sequence of the option-setting operations (the
`SET_` primitives, `ADD_headers`, `SET_fields`, and `execute`'s
write-callback / write-destination bindings, with arbitrary success or
failure of each native apply), the Option Registry of a connection built
by the `CurlConnection` constructor holds, for each option identifier,
exactly the string value of the most recent successful native apply of
that identifier (starting from the constructor's recorded baseline), has
exactly one entry per distinct identifier, and a failed apply leaves the
failed identifier's entry (or absence) unchanged — all captured by the
equality with `lastOkFrom` over the apply trace. -/
theorem registry_mirrors_applied_state (ops : List Op) :
    (∀ o, lookupOpt (runOps CurlConnection_new ops).1.options o
        = lastOkFrom (lookupOpt CurlConnection_new.options o)
            (runOps CurlConnection_new ops).2 o)
  ∧ keysNodup (runOps CurlConnection_new ops).1.options := by
  refine ⟨fun o => runOps_mirror ops CurlConnection_new o, ?_⟩
  refine runOps_nodup ops CurlConnection_new ?_
  simp [CurlConnection_new, setOption, freshState, updateOpt, keysNodup]

/-- Witness for C1 at a concrete call sequence: a second `SET_url` (with a
success) after a first one overwrites, and a failed `SET_encoding` leaves
the registry value at the last success. -/
theorem registry_mirrors_applied_state_witness :
    lookupOpt
      (runOps CurlConnection_new
        [Op.opSetUrl (("a").toList) true, Op.opSetUrl (("b").toList) true,
         Op.opSetEncoding (("x").toList) false]).1.options CURLoption.URL
      = lastOkFrom (lookupOpt CurlConnection_new.options CURLoption.URL)
          (runOps CurlConnection_new
            [Op.opSetUrl (("a").toList) true, Op.opSetUrl (("b").toList) true,
             Op.opSetEncoding (("x").toList) false]).2 CURLoption.URL :=
  (registry_mirrors_applied_state
    [Op.opSetUrl (("a").toList) true, Op.opSetUrl (("b").toList) true,
     Op.opSetEncoding (("x").toList) false]).1 CURLoption.URL

/-- Claim C2: `close` frees the header list and handle, nulls both, and
clears the registry; a second `close` (and the destructor, which just
calls `close`) leaves the state unchanged without failing; and every
mutating operation invoked on a closed connection returns the
closed-connection transport error, attempting no native apply and leaving
the state untouched. -/
theorem close_idempotent_and_closed_misuse :
    (∀ c : ConnState, close (close c) = close c)
  ∧ (∀ c : ConnState, (close c).handleOpen = false ∧ (close c).header = []
        ∧ (close c).options = [])
  ∧ (∀ (c : ConnState) (op : Op), c.handleOpen = false →
        runOp c op = ⟨c, [], some CurlError.closedError⟩) := by
  refine ⟨fun c => rfl, fun c => ⟨rfl, rfl, rfl⟩, fun c op h => ?_⟩
  cases op <;>
    simp [runOp, SET_url, SET_ssl_verify, SET_ssl_verify_using_ca_bundle,
      SET_ssl_verify_using_ca_certs, SET_encoding, SET_keepalive,
      ADD_headers, SET_fields, execute, setOption, seqStep, exceptErr, h]

/-- Witness for C2: `SET_keepalive` on an explicitly closed connection
raises the closed-connection error. -/
theorem close_idempotent_and_closed_misuse_witness :
    runOp (close CurlConnection_new) (Op.opSetKeepalive true)
      = ⟨close CurlConnection_new, [], some CurlError.closedError⟩ :=
  close_idempotent_and_closed_misuse.2.2 (close CurlConnection_new)
    (Op.opSetKeepalive true) rfl

/-- Claim C3: on an open connection with the two sink bindings succeeding,
`execute` records the write-callback and write-destination registry
entries, and: a non-zero engine code makes it raise the request-execution
error carrying exactly that code with no result triple (the sink's
accumulated chunks appear nowhere in the outcome); engine code zero makes
it return `(engine status, accumulated body, post-perform timestamp)`,
for every status value — a non-2xx status is an ordinary result, never an
error. -/
theorem execute_contract (c : ConnState) (e : Engine)
    (hopen : c.handleOpen = true) (hwf : e.wfOk = true) (hwd : e.wdOk = true) :
    (e.code ≠ 0 →
        (execute c e).2.2 = Except.error (CurlError.connError e.code))
  ∧ (e.code = 0 →
        (execute c e).2.2 = Except.ok (e.respCode, (e.chunks).flatten, e.now))
  ∧ lookupOpt (execute c e).1.options CURLoption.WRITEFUNCTION = some writeFnVal
  ∧ lookupOpt (execute c e).1.options CURLoption.WRITEDATA = some writeDataVal := by
  by_cases hc : e.code = 0 <;>
    simp [execute, setOption, hopen, hwf, hwd, hc, lookupOpt_updateOpt]

/-- Witness for C3: a failing engine (code 7) raises `connError 7`; a
succeeding engine returning HTTP 404 yields an ordinary result triple. -/
theorem execute_contract_witness :
    (execute CurlConnection_new
        ⟨true, true, 7, [("par").toList], 0, 5⟩).2.2
      = Except.error (CurlError.connError 7)
  ∧ (execute CurlConnection_new
        ⟨true, true, 0, [("O").toList, ("K").toList], 404, 9⟩).2.2
      = Except.ok (404, (("O").toList ++ ("K").toList ++ []), 9) :=
  ⟨(execute_contract CurlConnection_new ⟨true, true, 7, [("par").toList], 0, 5⟩
      rfl rfl rfl).1 (by decide),
   (execute_contract CurlConnection_new
      ⟨true, true, 0, [("O").toList, ("K").toList], 404, 9⟩ rfl rfl rfl).2.1 rfl⟩

/-- Counterexample to C4 as stated: after `RESET_options` on a freshly
constructed connection, the handle's no-signal option is back at the
engine default (absent), while a newly constructed connection has it
applied with value "1", and the whole state differs from a fresh
connection — so the connection does not behave as if freshly
constructed. -/
theorem reset_options_not_fresh_counterexample :
    lookupOpt (RESET_options CurlConnection_new).applied CURLoption.NOSIGNAL = none
  ∧ lookupOpt CurlConnection_new.applied CURLoption.NOSIGNAL = some (("1").toList)
  ∧ RESET_options CurlConnection_new ≠ CurlConnection_new := by
  refine ⟨rfl, rfl, ?_⟩
  decide

/-- Claim C4 (amended): after `RESET_options()` on an open connection the
Option Registry is empty, the header list is released, the handle stays
open (identity preserved), and the native handle is reset to engine
defaults — every option applied since construction, including the
constructor's baseline no-signal option, is undone (rather than restored
to the freshly-constructed state, which has no-signal applied and
registered). -/
theorem reset_options_restores_engine_defaults (c : ConnState)
    (h : c.handleOpen = true) :
    (RESET_options c).options = [] ∧ (RESET_options c).applied = []
  ∧ (RESET_options c).header = [] ∧ (RESET_options c).handleOpen = true := by
  simp [RESET_options, RESET_headers, h]

/-- Witness for C4's amended statement on a freshly built connection. -/
theorem reset_options_restores_engine_defaults_witness :
    (RESET_options CurlConnection_new).options = []
  ∧ (RESET_options CurlConnection_new).applied = []
  ∧ (RESET_options CurlConnection_new).header = []
  ∧ (RESET_options CurlConnection_new).handleOpen = true :=
  reset_options_restores_engine_defaults CurlConnection_new rfl

/-- Claim C7: the Secure variant's constructors apply peer verification
(value 1) and strict host verification (level 2); the Get variant adds the
HTTP-GET method flag, encoding "gzip", and TCP keep-alive; the Post
variant adds the HTTP-POST method flag, encoding "gzip", and keep-alive;
and for each variant the URL-taking form additionally applies the URL
option while the bare form leaves it unset. -/
theorem variant_construction_profiles :
    lookupOpt HTTPSConnection_new.options CURLoption.SSL_VERIFYPEER = some (("1").toList)
  ∧ lookupOpt HTTPSConnection_new.options CURLoption.SSL_VERIFYHOST = some (("2").toList)
  ∧ lookupOpt HTTPSConnection_new.applied CURLoption.SSL_VERIFYPEER = some (("1").toList)
  ∧ lookupOpt HTTPSConnection_new.applied CURLoption.SSL_VERIFYHOST = some (("2").toList)
  ∧ lookupOpt HTTPSGetConnection_new.options CURLoption.HTTPGET = some (("1").toList)
  ∧ lookupOpt HTTPSGetConnection_new.options CURLoption.ACCEPT_ENCODING = some (("gzip").toList)
  ∧ lookupOpt HTTPSGetConnection_new.options CURLoption.TCP_KEEPALIVE = some (("1").toList)
  ∧ lookupOpt HTTPSGetConnection_new.options CURLoption.SSL_VERIFYPEER = some (("1").toList)
  ∧ lookupOpt HTTPSPostConnection_new.options CURLoption.POST = some (("1").toList)
  ∧ lookupOpt HTTPSPostConnection_new.options CURLoption.ACCEPT_ENCODING = some (("gzip").toList)
  ∧ lookupOpt HTTPSPostConnection_new.options CURLoption.TCP_KEEPALIVE = some (("1").toList)
  ∧ lookupOpt HTTPSConnection_new.options CURLoption.URL = none
  ∧ lookupOpt HTTPSGetConnection_new.options CURLoption.URL = none
  ∧ lookupOpt HTTPSPostConnection_new.options CURLoption.URL = none
  ∧ (∀ url : Str,
        lookupOpt (HTTPSConnection_new_url url).options CURLoption.URL = some url
      ∧ lookupOpt (HTTPSGetConnection_new_url url).options CURLoption.URL = some url
      ∧ lookupOpt (HTTPSPostConnection_new_url url).options CURLoption.URL = some url
      ∧ lookupOpt (HTTPSConnection_new_url url).applied CURLoption.URL = some url) :=
  ⟨rfl, rfl, rfl, rfl, rfl, rfl, rfl, rfl, rfl, rfl, rfl, rfl, rfl, rfl,
   fun url => ⟨rfl, rfl, rfl, rfl⟩⟩

/-- Claim C8: when the `i`-th append of one `ADD_headers` call fails after
the earlier pairs were appended, the call raises the malformed-option
error naming `CURLOPT_HEADER` and the offending serialized pair, the
connection's header-list pointer is overwritten to null (the earlier
entries are unreachable), no native apply of the header-list option is
attempted for the call (empty apply trace), and the registry — in
particular its header entry — keeps its pre-call value. -/
theorem add_headers_failure_not_atomic (c : ConnState)
    (pairs : List (Str × Str)) (i : Nat) (applyOk : Bool)
    (hopen : c.handleOpen = true) (hi : i < pairs.length) :
    ADD_headers c pairs (List.replicate i true ++ [false]) applyOk
      = ⟨{ c with header := [] }, [],
          some (CurlError.optionError CURLoption.HEADER
            (serializeHeader (pairs.get ⟨i, hi⟩)))⟩ := by
  have hloop : ∀ (j : Nat) (ps : List (Str × Str)) (c2 : ConnState)
      (hj : j < ps.length),
      slistAppendLoop c2 ps (List.replicate j true ++ [false])
        = ⟨{ c2 with header := [] }, [],
            some (CurlError.optionError CURLoption.HEADER
              (serializeHeader (ps.get ⟨j, hj⟩)))⟩ := by
    intro j
    induction j with
    | zero =>
      intro ps c2 hj
      cases ps with
      | nil => cases hj
      | cons p rest => simp [slistAppendLoop]
    | succ n ih =>
      intro ps c2 hj
      cases ps with
      | nil => cases hj
      | cons p rest =>
        have hr : n < rest.length := Nat.lt_of_succ_lt_succ hj
        have hrep : List.replicate (n + 1) true ++ [false]
            = true :: (List.replicate n true ++ [false]) := by
          simp [List.replicate_succ]
        rw [hrep]
        have hstep : slistAppendLoop c2 (p :: rest)
              (true :: (List.replicate n true ++ [false]))
            = slistAppendLoop { c2 with header := c2.header ++ [serializeHeader p] }
                rest (List.replicate n true ++ [false]) := rfl
        rw [hstep, ih rest _ hr]
        rfl
  have hne : pairs.isEmpty = false := by
    cases pairs with
    | nil => cases hi
    | cons p rest => rfl
  simp only [ADD_headers, hopen, hne, if_true, if_false, Bool.false_eq_true,
    seqStep]
  rw [hloop i pairs c hi]
  simp [hopen]

theorem splitFirst_of_append (sep : Char) (a b : Str) (h : sep ∉ a) :
    splitFirst sep (a ++ sep :: b) = some (a, b) := by
  induction a with
  | nil => simp [splitFirst]
  | cons c rest ih =>
    have hc : ¬(c = sep) := fun e => h (by simp [e])
    simp [splitFirst, hc, ih (fun hm => h (List.mem_cons_of_mem _ hm))]

theorem splitOnChar_ne_nil (sep : Char) (s : Str) : splitOnChar sep s ≠ [] := by
  cases s with
  | nil => simp [splitOnChar]
  | cons c rest =>
    by_cases hc : c = sep
    · simp [splitOnChar, hc]
    · simp only [splitOnChar, hc, if_false]
      split <;> simp

theorem splitOnChar_of_not_mem (sep : Char) (s : Str) (h : sep ∉ s) :
    splitOnChar sep s = [s] := by
  induction s with
  | nil => rfl
  | cons c rest ih =>
    have hc : ¬(c = sep) := fun e => h (by simp [e])
    simp [splitOnChar, hc, ih (fun hm => h (List.mem_cons_of_mem _ hm))]

theorem splitOnChar_append (sep : Char) (s t : Str) (h : sep ∉ s) :
    splitOnChar sep (s ++ sep :: t) = s :: splitOnChar sep t := by
  induction s with
  | nil => simp [splitOnChar]
  | cons c rest ih =>
    have hc : ¬(c = sep) := fun e => h (by simp [e])
    have ih2 := ih (fun hm => h (List.mem_cons_of_mem _ hm))
    simp only [List.cons_append, splitOnChar, hc, if_false, List.append_eq, ih2]

/-- The POST-fields wire form as the spec words it: `key1=value1&key2=value2&...`
with no trailing `'&'`. -/
def wireSpec : List (Str × Str) → Str
  | [] => []
  | [p] => p.1 ++ '=' :: p.2
  | p :: rest => p.1 ++ '=' :: p.2 ++ '&' :: wireSpec rest

theorem dropLast_append_ne_nil (a b : Str) (hb : b ≠ []) :
    (a ++ b).dropLast = a ++ b.dropLast := by
  induction a with
  | nil => rfl
  | cons c rest ih =>
    have hne : rest ++ b ≠ [] := by
      intro he
      exact hb (List.append_eq_nil.mp he).2
    cases hr : rest ++ b with
    | nil => exact absurd hr hne
    | cons d t =>
      simp only [List.cons_append, hr, List.dropLast_cons₂, List.cons_append]
      rw [← hr, ih]

theorem buildFieldsRaw_ne_nil (p : Str × Str) (rest : List (Str × Str)) :
    buildFieldsRaw (p :: rest) ≠ [] := by
  simp only [buildFieldsRaw, List.map_cons, List.flatten_cons]
  intro h
  have := (List.append_eq_nil.mp h).1
  have := (List.append_eq_nil.mp this).2
  simp at this

theorem buildFields_eq_wireSpec (fs : List (Str × Str)) :
    buildFields fs = wireSpec fs := by
  induction fs with
  | nil => rfl
  | cons p rest ih =>
    cases rest with
    | nil =>
      have hne : buildFieldsRaw [p] ≠ [] := buildFieldsRaw_ne_nil p []
      have h1 : buildFields [p] = (buildFieldsRaw [p]).dropLast := by
        simp [buildFields, List.isEmpty_iff, hne]
      have h2 : buildFieldsRaw [p] = (p.1 ++ '=' :: p.2) ++ ['&'] := by
        simp [buildFieldsRaw]
      rw [h1, h2, List.dropLast_concat]
      rfl
    | cons q rest2 =>
      have hne : buildFieldsRaw (q :: rest2) ≠ [] := buildFieldsRaw_ne_nil q rest2
      have hne2 : buildFieldsRaw (p :: q :: rest2) ≠ [] := buildFieldsRaw_ne_nil p (q :: rest2)
      have hraw : buildFieldsRaw (p :: q :: rest2)
          = (p.1 ++ '=' :: p.2 ++ ['&']) ++ buildFieldsRaw (q :: rest2) := by
        simp [buildFieldsRaw]
      have hbf : buildFields (q :: rest2) = (buildFieldsRaw (q :: rest2)).dropLast := by
        simp [buildFields, List.isEmpty_iff, hne]
      calc buildFields (p :: q :: rest2)
          = (buildFieldsRaw (p :: q :: rest2)).dropLast := by
            simp [buildFields, List.isEmpty_iff, hne2]
        _ = (p.1 ++ '=' :: p.2 ++ ['&']) ++ (buildFieldsRaw (q :: rest2)).dropLast := by
            rw [hraw, dropLast_append_ne_nil _ _ hne]
        _ = (p.1 ++ '=' :: p.2 ++ ['&']) ++ wireSpec (q :: rest2) := by
            rw [← hbf, ih]
        _ = wireSpec (p :: q :: rest2) := by
            show _ = p.1 ++ '=' :: p.2 ++ '&' :: wireSpec (q :: rest2)
            simp

theorem fields_str_to_map_wireSpec (fs : List (Str × Str)) (hne : fs ≠ [])
    (h : ∀ p ∈ fs, '&' ∉ p.1 ∧ '=' ∉ p.1 ∧ '&' ∉ p.2) :
    fields_str_to_map (wireSpec fs) = fs := by
  induction fs with
  | nil => exact absurd rfl hne
  | cons p rest ih =>
    obtain ⟨h1, h2, h3⟩ := h p (by simp)
    have hamp : '&' ∉ p.1 ++ '=' :: p.2 := by
      intro hm
      rcases List.mem_append.mp hm with hm | hm
      · exact h1 hm
      · rcases List.mem_cons.mp hm with hm | hm
        · exact absurd hm.symm (by decide)
        · exact h3 hm
    have hsegne : p.1 ++ '=' :: p.2 ≠ [] := by
      intro he
      have := (List.append_eq_nil.mp he).2
      simp at this
    have hsplit : splitFirst '=' (p.1 ++ '=' :: p.2) = some (p.1, p.2) :=
      splitFirst_of_append '=' p.1 p.2 h2
    cases rest with
    | nil =>
      show (splitOnChar '&' (p.1 ++ '=' :: p.2)).filterMap _ = [p]
      rw [splitOnChar_of_not_mem '&' _ hamp]
      simp [hsegne, hsplit]
    | cons q rest2 =>
      have hws : wireSpec (p :: q :: rest2)
          = (p.1 ++ '=' :: p.2) ++ '&' :: wireSpec (q :: rest2) := by
        show p.1 ++ '=' :: p.2 ++ '&' :: wireSpec (q :: rest2) = _
        simp
      have ih2 := ih (by simp) (fun r hr => h r (List.mem_cons_of_mem _ hr))
      show (splitOnChar '&' (wireSpec (p :: q :: rest2))).filterMap _ = p :: q :: rest2
      rw [hws, splitOnChar_append '&' _ _ hamp]
      simp only [List.filterMap_cons, hsegne, if_neg hsegne, hsplit]
      exact congrArg (p :: ·) ih2

/-- Claim C5: for a non-empty field list whose keys and values contain no
`'&'` and no `'='`, `SET_fields` builds exactly the spec's wire string
`key1=value1&key2=value2&...` with no trailing `'&'`, records it (on a
successful apply) as the POST-fields registry value, and decoding it with
`fields_str_to_map` returns the original pairs in the original order;
`SET_fields` on an empty list raises nothing and leaves the state — in
particular the Option Registry — unchanged. -/
theorem set_fields_roundtrip (c : ConnState) (fs : List (Str × Str))
    (hopen : c.handleOpen = true) (hne : fs ≠ [])
    (h : ∀ p ∈ fs, ('&' ∉ p.1 ∧ '=' ∉ p.1) ∧ ('&' ∉ p.2 ∧ '=' ∉ p.2)) :
    buildFields fs = wireSpec fs
  ∧ fields_str_to_map (buildFields fs) = fs
  ∧ (SET_fields c fs true).state.options
      = updateOpt c.options CURLoption.COPYPOSTFIELDS (buildFields fs)
  ∧ (SET_fields c fs true).err = none
  ∧ SET_fields c [] true = ⟨c, [], none⟩ := by
  have hfe : fs.isEmpty = false := by
    cases fs with
    | nil => exact absurd rfl hne
    | cons p r => rfl
  have hrt : fields_str_to_map (wireSpec fs) = fs :=
    fields_str_to_map_wireSpec fs hne
      (fun p hp => ⟨(h p hp).1.1, (h p hp).1.2, (h p hp).2.1⟩)
  refine ⟨buildFields_eq_wireSpec fs, ?_, ?_, ?_, ?_⟩
  · rw [buildFields_eq_wireSpec fs]
    exact hrt
  · simp [SET_fields, hopen, hfe, setOption]
  · simp [SET_fields, hopen, hfe, setOption]
  · simp [SET_fields, hopen]

/-- Witness for C5 at `[("a","1"),("b","2")]` on a fresh connection. -/
theorem set_fields_roundtrip_witness :
    fields_str_to_map
        (buildFields [((("a").toList), (("1").toList)),
                      ((("b").toList), (("2").toList))])
      = [((("a").toList), (("1").toList)), ((("b").toList), (("2").toList))] :=
  (set_fields_roundtrip CurlConnection_new
    [((("a").toList), (("1").toList)), ((("b").toList), (("2").toList))]
    rfl (by decide) (by decide)).2.1

/-- Counterexample to C6 as stated: appending header ("A","1") and
rendering the header list does not return the pair ("A","1") — the value
comes back with the serialized space still attached. -/
theorem header_roundtrip_counterexample :
    header_list_to_map
        (ADD_headers CurlConnection_new
          [((("A").toList), (("1").toList))] [] true).state.header
      ≠ [((("A").toList), (("1").toList))] := by
  decide

theorem slistAppendLoop_all_ok (c : ConnState) (pairs : List (Str × Str)) :
    slistAppendLoop c pairs []
      = ⟨{ c with header := c.header ++ pairs.map serializeHeader }, [], none⟩ := by
  induction pairs generalizing c with
  | nil => simp [slistAppendLoop]
  | cons p rest ih =>
    simp only [slistAppendLoop, List.headD, List.tail, List.map_cons]
    rw [ih]
    simp

theorem header_list_to_map_serialize (pairs : List (Str × Str))
    (h : ∀ p ∈ pairs, ':' ∉ p.1) :
    header_list_to_map (pairs.map serializeHeader)
      = pairs.map (fun p => (p.1, ' ' :: p.2)) := by
  induction pairs with
  | nil => rfl
  | cons p rest ih =>
    have h1 : ':' ∉ p.1 := h p (by simp)
    have hser : serializeHeader p = p.1 ++ ':' :: ' ' :: p.2 := by
      simp [serializeHeader]
    have hsp : splitFirst ':' (serializeHeader p) = some (p.1, ' ' :: p.2) := by
      rw [hser]
      exact splitFirst_of_append ':' p.1 (' ' :: p.2) h1
    have ih2 := ih (fun r hr => h r (List.mem_cons_of_mem _ hr))
    simp only [List.map_cons, header_list_to_map, hsp] at ih2 ⊢
    rw [← ih2]

/-- Claim C6 (amended): `ADD_headers` serializes each pair as the single
native entry `"Name: Value"`, one node per pair appended in input order;
rendering afterwards with `header_list_to_map` (split at the first `':'`)
preserves the order and the names, but each rendered value is the
original value with the serialized space still prefixed (`" Value"`), not
the original value itself. -/
theorem add_headers_order_preserved (c : ConnState)
    (pairs : List (Str × Str)) (hopen : c.handleOpen = true)
    (hhdr : c.header = []) (hne : pairs ≠ [])
    (hcol : ∀ p ∈ pairs, ':' ∉ p.1) :
    (ADD_headers c pairs [] true).state.header = pairs.map serializeHeader
  ∧ header_list_to_map ((ADD_headers c pairs [] true).state.header)
      = pairs.map (fun p => (p.1, ' ' :: p.2))
  ∧ (ADD_headers c pairs [] true).err = none := by
  have hfe : pairs.isEmpty = false := by
    cases pairs with
    | nil => exact absurd rfl hne
    | cons p r => rfl
  have hdr : (ADD_headers c pairs [] true).state.header = pairs.map serializeHeader := by
    simp only [ADD_headers, hopen, hfe, if_true, if_false, Bool.false_eq_true,
      seqStep, slistAppendLoop_all_ok, hhdr, List.nil_append]
    simp [setOption, hopen]
  refine ⟨hdr, ?_, ?_⟩
  · rw [hdr]
    exact header_list_to_map_serialize pairs hcol
  · simp only [ADD_headers, hopen, hfe, if_true, if_false, Bool.false_eq_true,
      seqStep, slistAppendLoop_all_ok, hhdr, List.nil_append]
    simp [setOption, hopen]

/-- Witness for C6's amended statement at `[(A,1),(B,2)]`: rendering
yields `[(A," 1"),(B," 2")]`, same names and order, space-prefixed
values. -/
theorem add_headers_order_preserved_witness :
    header_list_to_map
        ((ADD_headers CurlConnection_new
          [((("A").toList), (("1").toList)), ((("B").toList), (("2").toList))]
          [] true).state.header)
      = [((("A").toList), ((" 1").toList)), ((("B").toList), ((" 2").toList))] := by
  have h := (add_headers_order_preserved CurlConnection_new
    [((("A").toList), (("1").toList)), ((("B").toList), (("2").toList))]
    rfl rfl (by decide) (by decide)).2.1
  rw [h]
  decide

/-- Witness for C8: with two headers and the second append failing, the
error names the second pair, the header pointer is nulled, and the
registry is unchanged. -/
theorem add_headers_failure_not_atomic_witness :
    ADD_headers CurlConnection_new
        [((("A").toList), (("1").toList)), ((("B").toList), (("2").toList))]
        (List.replicate 1 true ++ [false]) true
      = ⟨{ CurlConnection_new with header := [] }, [],
          some (CurlError.optionError CURLoption.HEADER
            (serializeHeader ((("B").toList), (("2").toList))))⟩ :=
  add_headers_failure_not_atomic CurlConnection_new
    [((("A").toList), (("1").toList)), ((("B").toList), (("2").toList))]
    1 true rfl (by decide)

end conn

namespace tdma

/-- Claim C9: `timestamp_to_ms` raises its invalid-timestamp error
(`APIException`) exactly for inputs whose length is not 24 or whose
characters 20-23 are not `"0000"`; it never validates the separator
positions 4, 7, 10, 13, 16, the `'T'` at 10, or the sign at 19, so
24-character strings with a `'-'` sign or arbitrary separator characters
around numeric-prefixed fields pass the check and yield an
epoch-milliseconds value instead of raising. -/
theorem timestamp_error_iff (ts : Str) :
    (timestamp_to_ms ts = Except.error TsError.apiError
       ↔ ¬(ts.length = 24 ∧ fieldAt ts 20 4 = ("0000").toList))
  ∧ timestamp_to_ms (("2018-06-12T02:18:23-0000").toList)
      = Except.ok 1528769903000
  ∧ timestamp_to_ms (("2018a06b12c02d18e23f0000").toList)
      = Except.ok 1528769903000 := by
  refine ⟨?_, rfl, rfl⟩
  by_cases h : ts.length = 24 ∧ fieldAt ts 20 4 = ("0000").toList
  · simp only [timestamp_to_ms, h, if_true, iff_false, not_not]
    cases hp : parseTsFields ts <;> simp [hp, h]
  · simp only [timestamp_to_ms]
    rw [if_neg h]
    exact iff_of_true rfl h

/-- Witness for C9: a 1-character input raises the invalid-timestamp
error (via the iff), and the documented well-formed input parses. -/
theorem timestamp_error_iff_witness :
    timestamp_to_ms (("x").toList) = Except.error TsError.apiError
  ∧ timestamp_to_ms (("2018-06-12T02:18:23+0000").toList)
      = Except.ok 1528769903000 :=
  ⟨((timestamp_error_iff (("x").toList)).1).mpr (by decide), rfl⟩

/-- Claim C10: the `StreamerService` string constructor accepts exactly
the 18 enumerated literal names and raises a `ValueException` naming the
offending input for every other string; in particular `"CHART_FOREX"` and
`"TIMESALE_FOREX"`, whose branches are commented out, are rejected with
that error. -/
theorem streamer_service_names (s : Str) :
    ((∃ t, StreamerService_from_string s = Except.ok t)
        ↔ s ∈ validServiceNames)
  ∧ (s ∉ validServiceNames →
        StreamerService_from_string s
          = Except.error (ValueErr.valueError
              ((("invalid service name: ").toList) ++ s)))
  ∧ validServiceNames.length = 18
  ∧ StreamerService_from_string (("CHART_FOREX").toList)
      = Except.error (ValueErr.valueError
          ((("invalid service name: ").toList) ++ ("CHART_FOREX").toList))
  ∧ StreamerService_from_string (("TIMESALE_FOREX").toList)
      = Except.error (ValueErr.valueError
          ((("invalid service name: ").toList) ++ ("TIMESALE_FOREX").toList)) := by
  have herr : s ∉ validServiceNames →
      StreamerService_from_string s
        = Except.error (ValueErr.valueError
            ((("invalid service name: ").toList) ++ s)) := by
    intro h
    have n1 : ¬(s = (("NONE").toList)) := fun e => h (by rw [e]; decide)
    have n2 : ¬(s = (("ADMIN").toList)) := fun e => h (by rw [e]; decide)
    have n3 : ¬(s = (("ACTIVES_NASDAQ").toList)) := fun e => h (by rw [e]; decide)
    have n4 : ¬(s = (("ACTIVES_NYSE").toList)) := fun e => h (by rw [e]; decide)
    have n5 : ¬(s = (("ACTIVES_OTCBB").toList)) := fun e => h (by rw [e]; decide)
    have n6 : ¬(s = (("ACTIVES_OPTIONS").toList)) := fun e => h (by rw [e]; decide)
    have n7 : ¬(s = (("CHART_EQUITY").toList)) := fun e => h (by rw [e]; decide)
    have n8 : ¬(s = (("CHART_FUTURES").toList)) := fun e => h (by rw [e]; decide)
    have n9 : ¬(s = (("CHART_OPTIONS").toList)) := fun e => h (by rw [e]; decide)
    have n10 : ¬(s = (("QUOTE").toList)) := fun e => h (by rw [e]; decide)
    have n11 : ¬(s = (("LEVELONE_FUTURES").toList)) := fun e => h (by rw [e]; decide)
    have n12 : ¬(s = (("LEVELONE_FOREX").toList)) := fun e => h (by rw [e]; decide)
    have n13 : ¬(s = (("LEVELONE_FUTURES_OPTIONS").toList)) := fun e => h (by rw [e]; decide)
    have n14 : ¬(s = (("OPTION").toList)) := fun e => h (by rw [e]; decide)
    have n15 : ¬(s = (("NEWS_HEADLINE").toList)) := fun e => h (by rw [e]; decide)
    have n16 : ¬(s = (("TIMESALE_EQUITY").toList)) := fun e => h (by rw [e]; decide)
    have n17 : ¬(s = (("TIMESALE_FUTURES").toList)) := fun e => h (by rw [e]; decide)
    have n18 : ¬(s = (("TIMESALE_OPTIONS").toList)) := fun e => h (by rw [e]; decide)
    unfold StreamerService_from_string
    rw [if_neg n1, if_neg n2, if_neg n3, if_neg n4, if_neg n5, if_neg n6, if_neg n7, if_neg n8, if_neg n9, if_neg n10, if_neg n11, if_neg n12, if_neg n13, if_neg n14, if_neg n15, if_neg n16, if_neg n17, if_neg n18]
  refine ⟨⟨?_, ?_⟩, herr, rfl, rfl, rfl⟩
  · rintro ⟨t, ht⟩
    by_contra hmem
    rw [herr hmem] at ht
    exact Except.noConfusion ht
  · intro hmem
    simp only [validServiceNames, List.mem_cons, List.not_mem_nil,
      or_false] at hmem
    rcases hmem with h | h | h | h | h | h | h | h | h | h | h | h | h | h |
      h | h | h | h <;> subst h <;> exact ⟨_, rfl⟩

/-- Witness for C10: `"QUOTE"` is accepted; `"FOO"` is rejected with the
message naming it. -/
theorem streamer_service_names_witness :
    StreamerService_from_string (("FOO").toList)
      = Except.error (ValueErr.valueError
          ((("invalid service name: ").toList) ++ ("FOO").toList)) :=
  (streamer_service_names (("FOO").toList)).2.1 (by decide)

end tdma
